import Mathlib

/-!
Shallow embedding of the DFC authorization server (authn) and of the
proxy-side token handling in `dfc/auth.go`.

The authn user manager (`userManager` in the Go source) keeps a map of
registered users, a map of issued tokens (keyed by userID) and a version
counter.  Go maps are modelled as association lists with unique keys;
`time.Time` values are modelled as `Int` timestamps, with `a.Before(b)`
becoming `a < b` and `a.After(b)` becoming `b < a`.  External library
functions (base64 encoding/decoding, JWT signing and parsing, RFC822 time
parsing, network probes) are taken as function parameters of the
operations that call them.  File persistence and the network delivery
loops are outside the model; the state-transforming part of each
operation is embedded in full.
-/

/-- Errors produced by the embedded operations.  Each constructor carries
the meaning of one `fmt.Errorf` message of the Go source. -/
inductive AuthErr where
  /-- "Invalid credentials" -/
  | invalidCredentials
  /-- "User 'x' already registered" -/
  | alreadyRegistered (userID : String)
  /-- "User x does not exist" -/
  | userNotExist (userID : String)
  /-- "Invalid username or password" -/
  | invalidUserPass
  /-- "Token expired" -/
  | tokenExpired
  /-- "Token not found" -/
  | tokenNotFound
  /-- "Invalid token" -/
  | invalidToken
  /-- "Cluster map is empty" -/
  | emptyClusterMap
  /-- "Detecting primary proxy failed" -/
  | primaryDetectFailed
deriving DecidableEq, Repr

/-- Go struct `userInfo`: a registered user.  `password` holds the base64
encoded secret, `passwordDecoded` the plain secret, `creds` the optional
cloud credentials map. -/
structure UserInfo where
  userID : String
  password : String
  passwordDecoded : String
  creds : List (String × String)
deriving DecidableEq, Repr

/-- Go struct `tokenInfo`: an issued token record. -/
structure TokenInfo where
  userID : String
  issued : Int
  expires : Int
  token : String
deriving DecidableEq, Repr

/-- Go struct `dfc.TokenList`: list of signed tokens pushed by authn,
tagged with a version. -/
structure TokenList where
  tokens : List String
  version : Int
deriving DecidableEq, Repr

/-- The mutable state of Go struct `userManager`: the registered users
(`Users`), the issued tokens keyed by userID (`tokens`) and the version
counter (`version`). -/
structure UserManager where
  users : List (String × UserInfo)
  tokens : List (String × TokenInfo)
  version : Int
deriving DecidableEq, Repr

/-- Lookup in a Go map modelled as an association list. -/
def lookupKey {α : Type} (k : String) : List (String × α) → Option α
  | [] => none
  | p :: rest => if p.1 = k then some p.2 else lookupKey k rest

/-- Go `delete(m, k)`: remove the entry with key `k`. -/
def eraseKey {α : Type} (k : String) (l : List (String × α)) : List (String × α) :=
  l.filter (fun p => ¬ p.1 = k)

/-- Go `m[k] = v`: set the entry with key `k`. -/
def insertKey {α : Type} (k : String) (v : α) (l : List (String × α)) :
    List (String × α) :=
  (k, v) :: eraseKey k l

/-- Go `userManager.addUser`.  `encode` stands for
`base64.StdEncoding.EncodeToString`.  Returns the new state and `none` on
success, the unchanged state and an error otherwise.  The trailing
`saveUsers` call only persists to disk and is not part of the state
transition. -/
def addUser (encode : String → String) (m : UserManager)
    (userID userPass : String) : UserManager × Option AuthErr :=
  if userID = "" ∨ userPass = "" then
    (m, some .invalidCredentials)
  else if (lookupKey userID m.users).isSome then
    (m, some (.alreadyRegistered userID))
  else
    ({ users := insertKey userID
         { userID := userID, password := encode userPass,
           passwordDecoded := userPass, creds := [] } m.users,
       tokens := eraseKey userID m.tokens,
       version := m.version }, none)

/-- Go `userManager.delUser`: removes an existing user, removes its token
if any, and increments the version only when a token was actually
removed. -/
def delUser (m : UserManager) (userID : String) : UserManager × Option AuthErr :=
  if (lookupKey userID m.users).isSome then
    let hadToken := (lookupKey userID m.tokens).isSome
    ({ users := eraseKey userID m.users,
       tokens := eraseKey userID m.tokens,
       version := if hadToken then m.version + 1 else m.version }, none)
  else
    (m, some (.userNotExist userID))

/-- Token generation tail of Go `userManager.issueToken`: build the
claims from `now` and `now + expirePeriod`, sign them (`sign` stands for
`jwt SignedString` over userID, issued, expires and creds), store the new
token record and increment the version. -/
def generateToken (sign : String → Int → Int → List (String × String) → String)
    (expirePeriod now : Int) (m : UserManager) (userID : String)
    (creds : List (String × String)) : UserManager × Except AuthErr String :=
  let issued := now
  let expires := now + expirePeriod
  let tokenString := sign userID issued expires creds
  ({ m with
     tokens := insertKey userID
       { userID := userID, issued := issued, expires := expires,
         token := tokenString } m.tokens,
     version := m.version + 1 }, .ok tokenString)

/-- Go `userManager.issueToken`: checks credentials, returns the stored
token unchanged when it has not expired, otherwise discards it and
generates a fresh one. -/
def issueToken (sign : String → Int → Int → List (String × String) → String)
    (expirePeriod now : Int) (m : UserManager) (userID pwd : String) :
    UserManager × Except AuthErr String :=
  match lookupKey userID m.users with
  | none => (m, .error .invalidCredentials)
  | some user =>
    if user.passwordDecoded ≠ pwd then
      (m, .error .invalidUserPass)
    else
      match lookupKey userID m.tokens with
      | some tok =>
        if now < tok.expires then
          (m, .ok tok.token)
        else
          generateToken sign expirePeriod now
            { m with tokens := eraseKey userID m.tokens } userID user.creds
      | none => generateToken sign expirePeriod now m userID user.creds

/-- Loop body of Go `userManager.revokeToken`: remove the first entry
whose stored signed value equals `token`; report whether one was
removed. -/
def revokeAux (token : String) :
    List (String × TokenInfo) → List (String × TokenInfo) × Bool
  | [] => ([], false)
  | p :: rest =>
    if p.2.token = token then (rest, true)
    else
      let r := revokeAux token rest
      (p :: r.1, r.2)

/-- Go `userManager.revokeToken`: silent no-op when no entry matches;
otherwise removes the matching entry and increments the version. -/
def revokeToken (m : UserManager) (token : String) : UserManager :=
  let r := revokeAux token m.tokens
  { m with
    tokens := r.1,
    version := if r.2 then m.version + 1 else m.version }

/-- Loop body of Go `userManager.userByToken`: find the entry whose
signed value equals `token`; when expired, delete it and fail with
`tokenExpired`; otherwise cross-reference the owning userID against the
user map. -/
def userByTokenAux (users : List (String × UserInfo)) (now : Int)
    (token : String) :
    List (String × TokenInfo) → List (String × TokenInfo) × Except AuthErr UserInfo
  | [] => ([], .error .tokenNotFound)
  | p :: rest =>
    if p.2.token = token then
      if p.2.expires < now then
        (rest, .error .tokenExpired)
      else
        match lookupKey p.1 users with
        | none => (p :: rest, .error .invalidToken)
        | some u => (p :: rest, .ok u)
    else
      let r := userByTokenAux users now token rest
      (p :: r.1, r.2)

/-- Go `userManager.userByToken`.  The version counter is never
touched. -/
def userByToken (m : UserManager) (now : Int) (token : String) :
    UserManager × Except AuthErr UserInfo :=
  let r := userByTokenAux m.users now token m.tokens
  ({ m with tokens := r.1 }, r.2)

/-- Sweep loop of Go `userManager.sendTokensToProxy`: drop every expired
token record, collect the signed values of the rest in iteration
order. -/
def sweepTokens (now : Int) :
    List (String × TokenInfo) → List (String × TokenInfo) × List String
  | [] => ([], [])
  | p :: rest =>
    if p.2.expires < now then sweepTokens now rest
    else
      let r := sweepTokens now rest
      (p :: r.1, p.2.token :: r.2)

/-- Snapshot phase of Go `userManager.sendTokensToProxy`: when the
tracked primary URL is empty the task returns immediately (`none`);
otherwise it sweeps expired tokens (without touching the version) and
builds the `TokenList` tagged with the current version.  The subsequent
local save and HTTP delivery loop are outside the model. -/
def sendTokensToProxy (proxyUrl : String) (now : Int) (m : UserManager) :
    Option (UserManager × TokenList) :=
  if proxyUrl = "" then none
  else
    let r := sweepTokens now m.tokens
    some ({ m with tokens := r.1 }, { tokens := r.2, version := m.version })

/-- Token-loading loop of Go `newUserManager`: decrypt each persisted
token string, skip the invalid ones, store the rest keyed by their
userID. -/
def loadTokens (decrypt : String → Option TokenInfo) (ts : List String) :
    List (String × TokenInfo) :=
  ts.foldl (fun acc t =>
    match decrypt t with
    | none => acc
    | some ti => insertKey ti.userID ti acc) []

/-- Go `newUserManager` state construction.  `dbFile` is the content of
the user DB file when it exists (`none` when `os.Stat` reports it does
not exist); `tokenFile` is the content of the `.tokens` file when it
loads.  When the user DB file does not exist the manager starts with
empty maps and version 1 and the token file is never read.  `decodePwd`
stands for `base64.StdEncoding.DecodeString`. -/
def newUserManager (decrypt : String → Option TokenInfo)
    (decodePwd : String → String)
    (dbFile : Option (List (String × UserInfo)))
    (tokenFile : Option TokenList) : UserManager :=
  match dbFile with
  | none => { users := [], tokens := [], version := 1 }
  | some loadedUsers =>
    let users := loadedUsers.map
      (fun p => (p.1, { p.2 with passwordDecoded := decodePwd p.2.password }))
    match tokenFile with
    | none => { users := users, tokens := [], version := 1 }
    | some tl =>
      { users := users, tokens := loadTokens decrypt tl.tokens,
        version := tl.version }

/-- Go struct `daemonInfo` (only the field the proxy code reads). -/
structure DaemonInfo where
  directURL : String
deriving DecidableEq, Repr

/-- Go struct `dfc.Smap`: proxy members, storage members, and the current
primary proxy. -/
structure Smap where
  pmap : List DaemonInfo
  tmap : List DaemonInfo
  proxySI : DaemonInfo
deriving DecidableEq, Repr

/-- Go struct `proxy`: the tracked primary URL and the local cluster-map
snapshot. -/
structure Proxy where
  url : String
  smap : Option Smap
deriving DecidableEq, Repr

/-- One probing pass of Go `proxy.detectPrimary` over a member list:
skip members at the tracked URL, skip failed probes
(`client.GetClusterMap` errors, modelled by `probe` returning `none`),
and adopt the first reported map whose primary differs from the tracked
URL. -/
def probePass (probe : String → Option Smap) (selfUrl : String) :
    List DaemonInfo → Option Smap
  | [] => none
  | d :: rest =>
    if d.directURL = selfUrl then probePass probe selfUrl rest
    else
      match probe d.directURL with
      | none => probePass probe selfUrl rest
      | some sm =>
        if sm.proxySI.directURL ≠ selfUrl then some sm
        else probePass probe selfUrl rest

/-- Go `proxy.detectPrimary`: empty-map error, then the proxy pass, then
the storage pass; adoption replaces both the tracked URL and the
snapshot. -/
def detectPrimary (probe : String → Option Smap) (p : Proxy) :
    Proxy × Option AuthErr :=
  match p.smap with
  | none => (p, some .emptyClusterMap)
  | some sm =>
    if sm.pmap.length + sm.tmap.length = 0 then (p, some .emptyClusterMap)
    else
      match probePass probe p.url sm.pmap with
      | some found =>
        ({ url := found.proxySI.directURL, smap := some found }, none)
      | none =>
        match probePass probe p.url sm.tmap with
        | some found =>
          ({ url := found.proxySI.directURL, smap := some found }, none)
        | none => (p, some .primaryDetectFailed)

/-- Modelled from the spec wording of the detection order: whether one
member is adoptable — not at the tracked URL, probe succeeds, and the
reported primary differs from the tracked URL. -/
def adoptable (probe : String → Option Smap) (selfUrl : String)
    (d : DaemonInfo) : Option Smap :=
  if d.directURL = selfUrl then none
  else
    match probe d.directURL with
    | none => none
    | some sm => if sm.proxySI.directURL ≠ selfUrl then some sm else none

/-- Modelled from the spec wording: the first adoptable member of a list,
in order. -/
def firstAdoptable (probe : String → Option Smap) (selfUrl : String) :
    List DaemonInfo → Option Smap
  | [] => none
  | d :: rest =>
    match adoptable probe selfUrl d with
    | some sm => some sm
    | none => firstAdoptable probe selfUrl rest

/-- Modelled from the spec wording of `detectPrimary`: probe the
proxy-role members then the storage-role members as one ordered scan,
adopt the first member reporting a different primary, fail otherwise. -/
def detectPrimarySpec (probe : String → Option Smap) (p : Proxy) :
    Proxy × Option AuthErr :=
  match p.smap with
  | none => (p, some .emptyClusterMap)
  | some sm =>
    if sm.pmap.length + sm.tmap.length = 0 then (p, some .emptyClusterMap)
    else
      match firstAdoptable probe p.url (sm.pmap ++ sm.tmap) with
      | some found =>
        ({ url := found.proxySI.directURL, smap := some found }, none)
      | none => (p, some .primaryDetectFailed)

/-- Go struct `authRec` of `dfc/auth.go`: decrypted token content. -/
structure AuthRec where
  userID : String
  issued : Int
  expires : Int
  creds : List (String × String)
deriving DecidableEq, Repr

/-- A JWT claim value as seen by the Go type assertions: a string, a
`map[string]string`, or anything else. -/
inductive ClaimVal where
  | str (s : String)
  | strMap (m : List (String × String))
  | other
deriving DecidableEq, Repr

/-- Go type assertion `.(string)` on an optional claim value. -/
def asString : Option ClaimVal → Option String
  | some (.str s) => some s
  | _ => none

/-- Go type assertion `.(map[string]string)` on an optional claim
value. -/
def asStrMap : Option ClaimVal → Option (List (String × String))
  | some (.strMap m) => some m
  | _ => none

/-- Claim-decoding stage of Go `dfc.decryptToken` (after `jwt.Parse`
succeeded): username, issued and expires must be string claims with
parsable RFC822 timestamps; a missing or ill-typed creds claim falls
back to an empty map.  `parseRFC822` stands for
`time.Parse(time.RFC822, s)`. -/
def decryptToken (parseRFC822 : String → Option Int)
    (claims : List (String × ClaimVal)) : Except String AuthRec :=
  match asString (lookupKey "username" claims) with
  | none => .error "Invalid token"
  | some userID =>
    match asString (lookupKey "issued" claims) with
    | none => .error "Invalid token"
    | some issueStr =>
      match parseRFC822 issueStr with
      | none => .error "Invalid token"
      | some issued =>
        match asString (lookupKey "expires" claims) with
        | none => .error "Invalid token"
        | some expireStr =>
          match parseRFC822 expireStr with
          | none => .error "Invalid token"
          | some expires =>
            let creds :=
              match asStrMap (lookupKey "creds" claims) with
              | some c => c
              | none => []
            .ok { userID := userID, issued := issued, expires := expires,
                  creds := creds }

/-- Token-list loop of Go `dfc.newAuthList`: decrypt every token, fail on
the first error, otherwise key each record by its token string. -/
def buildAuthList (decrypt : String → Except String AuthRec) :
    List String → Except String (List (String × AuthRec))
  | [] => .ok []
  | t :: rest =>
    match decrypt t with
    | .error e => .error e
    | .ok r =>
      match buildAuthList decrypt rest with
      | .error e => .error e
      | .ok acc => .ok ((t, r) :: acc)

/-- Go `dfc.newAuthList`: a nil or empty `TokenList` yields an empty set
with version 1; otherwise the conversion is all-or-nothing. -/
def newAuthList (decrypt : String → Except String AuthRec)
    (tokenList : Option TokenList) :
    Except String (List (String × AuthRec) × Int) :=
  match tokenList with
  | none => .ok ([], 1)
  | some tl =>
    if tl.tokens.isEmpty then .ok ([], 1)
    else
      match buildAuthList decrypt tl.tokens with
      | .error e => .error e
      | .ok auth => .ok (auth, tl.version)

/-- Remove the first token record whose signed value equals `token`
(description of the removal performed by `revokeToken` and
`userByToken`). -/
def removeFirstToken (token : String) :
    List (String × TokenInfo) → List (String × TokenInfo)
  | [] => []
  | p :: rest =>
    if p.2.token = token then rest else p :: removeFirstToken token rest

/-- Sample registered user, mirroring the repository's test fixtures. -/
def sampleUser : UserInfo :=
  { userID := "user1", password := "pass2", passwordDecoded := "pass2",
    creds := [] }

/-- Sample live token record (expires at time 100). -/
def sampleToken : TokenInfo :=
  { userID := "user1", issued := 0, expires := 100, token := "tok1" }

/-- Sample expired token record (expires at time 10). -/
def expiredToken : TokenInfo :=
  { userID := "user1", issued := 0, expires := 10, token := "tokE" }

/-- Sample manager holding one user with a live token. -/
def sampleMgr : UserManager :=
  { users := [("user1", sampleUser)], tokens := [("user1", sampleToken)],
    version := 3 }

/-- Sample manager holding one user with an expired token. -/
def mgrExpired : UserManager :=
  { users := [("user1", sampleUser)], tokens := [("user1", expiredToken)],
    version := 4 }

/-- Sample manager holding a live token whose owning user is absent. -/
def mgrOrphan : UserManager :=
  { users := [], tokens := [("user1", sampleToken)], version := 2 }

theorem revokeAux_eq (token : String) (l : List (String × TokenInfo)) :
    revokeAux token l =
      (removeFirstToken token l,
       (l.find? (fun p => p.2.token == token)).isSome) := by
  induction l with
  | nil => simp [revokeAux, removeFirstToken]
  | cons p rest ih =>
    by_cases h : p.2.token = token
    · rw [List.find?_cons_of_pos _ (by simp [h])]
      simp [revokeAux, removeFirstToken, h]
    · rw [List.find?_cons_of_neg _ (by simp [h])]
      simp [revokeAux, removeFirstToken, h, ih]

theorem removeFirstToken_of_find_none (token : String)
    (l : List (String × TokenInfo))
    (h : l.find? (fun p => p.2.token == token) = none) :
    removeFirstToken token l = l := by
  induction l with
  | nil => simp [removeFirstToken]
  | cons p rest ih =>
    by_cases hp : p.2.token = token
    · rw [List.find?_cons_of_pos _ (by simp [hp])] at h
      cases h
    · rw [List.find?_cons_of_neg _ (by simp [hp])] at h
      simp [removeFirstToken, hp, ih h]

theorem userByTokenAux_eq (users : List (String × UserInfo)) (now : Int)
    (token : String) (l : List (String × TokenInfo)) :
    userByTokenAux users now token l =
      match l.find? (fun p => p.2.token == token) with
      | none => (l, .error .tokenNotFound)
      | some q =>
        if q.2.expires < now then
          (removeFirstToken token l, .error .tokenExpired)
        else
          match lookupKey q.1 users with
          | none => (l, .error .invalidToken)
          | some u => (l, .ok u) := by
  induction l with
  | nil => simp [userByTokenAux]
  | cons p rest ih =>
    by_cases h : p.2.token = token
    · rw [List.find?_cons_of_pos _ (by simp [h])]
      by_cases he : p.2.expires < now
      · simp [userByTokenAux, removeFirstToken, h, he]
      · cases hu : lookupKey p.1 users with
        | none => simp [userByTokenAux, h, he, hu]
        | some u => simp [userByTokenAux, h, he, hu]
    · rw [List.find?_cons_of_neg _ (by simp [h])]
      cases hf : rest.find? (fun p => p.2.token == token) with
      | none => simp [userByTokenAux, h, ih, hf]
      | some q =>
        by_cases he : q.2.expires < now
        · simp [userByTokenAux, removeFirstToken, h, ih, hf, he]
        · cases hu : lookupKey q.1 users with
          | none => simp [userByTokenAux, h, ih, hf, he, hu]
          | some u => simp [userByTokenAux, h, ih, hf, he, hu]

theorem sweepTokens_eq (now : Int) (l : List (String × TokenInfo)) :
    sweepTokens now l =
      (l.filter (fun p => now ≤ p.2.expires),
       (l.filter (fun p => now ≤ p.2.expires)).map (fun p => p.2.token)) := by
  induction l with
  | nil => simp [sweepTokens]
  | cons p rest ih =>
    by_cases h : p.2.expires < now
    · have hn : ¬ now ≤ p.2.expires := by omega
      simp [sweepTokens, h, hn, ih]
    · have hy : now ≤ p.2.expires := by omega
      simp [sweepTokens, h, hy, ih]

theorem probePass_eq_firstAdoptable (probe : String → Option Smap)
    (selfUrl : String) (l : List DaemonInfo) :
    probePass probe selfUrl l = firstAdoptable probe selfUrl l := by
  induction l with
  | nil => rfl
  | cons d rest ih =>
    by_cases h1 : d.directURL = selfUrl
    · simp [probePass, firstAdoptable, adoptable, h1, ih]
    · cases hp : probe d.directURL with
      | none => simp [probePass, firstAdoptable, adoptable, h1, hp, ih]
      | some sm =>
        by_cases h2 : sm.proxySI.directURL = selfUrl
        · simp [probePass, firstAdoptable, adoptable, h1, hp, h2, ih]
        · simp [probePass, firstAdoptable, adoptable, h1, hp, h2]

theorem firstAdoptable_append (probe : String → Option Smap)
    (selfUrl : String) (l1 l2 : List DaemonInfo) :
    firstAdoptable probe selfUrl (l1 ++ l2) =
      match firstAdoptable probe selfUrl l1 with
      | some sm => some sm
      | none => firstAdoptable probe selfUrl l2 := by
  induction l1 with
  | nil => simp [firstAdoptable]
  | cons d rest ih =>
    cases ha : adoptable probe selfUrl d with
    | none => simp [firstAdoptable, ha, ih]
    | some sm => simp [firstAdoptable, ha]

theorem buildAuthList_error (decrypt : String → Except String AuthRec)
    (ts : List String) (t : String) (e : String)
    (ht : t ∈ ts) (he : decrypt t = .error e) :
    ∃ e2, buildAuthList decrypt ts = .error e2 := by
  induction ts with
  | nil => cases ht
  | cons t0 rest ih =>
    cases hd : decrypt t0 with
    | error e0 => exact ⟨e0, by simp [buildAuthList, hd]⟩
    | ok r0 =>
      rcases List.mem_cons.mp ht with h0 | h0
      · subst h0; rw [hd] at he; cases he
      · obtain ⟨e2, h2⟩ := ih h0
        exact ⟨e2, by simp [buildAuthList, hd, h2]⟩

theorem buildAuthList_ok (decrypt : String → Except String AuthRec)
    (ts : List String) (h : ∀ t, t ∈ ts → ∃ r, decrypt t = .ok r) :
    ∃ l, buildAuthList decrypt ts = .ok l := by
  induction ts with
  | nil => exact ⟨[], rfl⟩
  | cons t0 rest ih =>
    obtain ⟨r0, hr0⟩ := h t0 (List.mem_cons_self t0 rest)
    obtain ⟨l, hl⟩ := ih (fun t ht => h t (List.mem_cons_of_mem t0 ht))
    exact ⟨(t0, r0) :: l, by simp [buildAuthList, hr0, hl]⟩

/-- C1: addUser on a fresh manager with the repository test's first
user/password pair succeeds (error `none`), registers the user and
stores no token, yet leaves the version counter at 1: the code never
increments the version on a successful addUser, although the spec says
it does and the repository's own test `createUsers` requires the
version to increase after every addUser. -/
theorem addUser_version_bug :
    (addUser (fun s => s) { users := [], tokens := [], version := 1 }
        "user1" "pass2").2 = none ∧
    (addUser (fun s => s) { users := [], tokens := [], version := 1 }
        "user1" "pass2").1.version = 1 ∧
    (lookupKey "user1"
      (addUser (fun s => s) { users := [], tokens := [], version := 1 }
        "user1" "pass2").1.users).isSome = true := by
  decide

/-- C2: delUser of a registered user that has no token succeeds and
removes the user, but leaves the version counter unchanged (7 here):
the code increments the version only when a token was removed, although
the spec says deletion of the user itself also increments the version
and the repository's own test `deleteUsers` requires the version to
increase after every delUser. -/
theorem delUser_version_bug :
    delUser { users := [("user1", sampleUser)], tokens := [], version := 7 }
        "user1" =
      ({ users := [], tokens := [], version := 7 }, none) := by
  decide

/-- C3: when a registered user holds a token that expires after `now`,
issueToken with the correct secret returns exactly the stored signed
value and the whole state (token map and version included) is
unchanged; with an unknown userID it fails with the
invalid-credentials error and with a wrong secret it fails with the
invalid-username-or-password error, the state unchanged in both
cases. -/
theorem issueToken_claim
    (sign : String → Int → Int → List (String × String) → String)
    (expirePeriod now : Int) (m : UserManager) (userID pwd : String) :
    (∀ user tok, lookupKey userID m.users = some user →
        user.passwordDecoded = pwd →
        lookupKey userID m.tokens = some tok → now < tok.expires →
        issueToken sign expirePeriod now m userID pwd = (m, .ok tok.token)) ∧
    (lookupKey userID m.users = none →
        issueToken sign expirePeriod now m userID pwd =
          (m, .error .invalidCredentials)) ∧
    (∀ user, lookupKey userID m.users = some user →
        user.passwordDecoded ≠ pwd →
        issueToken sign expirePeriod now m userID pwd =
          (m, .error .invalidUserPass)) := by
  refine ⟨?_, ?_, ?_⟩
  · intro user tok hu hpwd ht hexp
    simp [issueToken, hu, hpwd, ht, hexp]
  · intro hu
    simp [issueToken, hu]
  · intro user hu hne
    simp [issueToken, hu, hne]

/-- C3 witness: the three branches of `issueToken_claim` evaluated on a
concrete manager holding user "user1" with secret "pass2" and a token
expiring at time 100, at current time 5. -/
theorem issueToken_claim_witness :
    issueToken (fun _ _ _ _ => "sig") 30 5 sampleMgr "user1" "pass2" =
      (sampleMgr, .ok "tok1") ∧
    issueToken (fun _ _ _ _ => "sig") 30 5 sampleMgr "nouser" "pass2" =
      (sampleMgr, .error .invalidCredentials) ∧
    issueToken (fun _ _ _ _ => "sig") 30 5 sampleMgr "user1" "bad" =
      (sampleMgr, .error .invalidUserPass) := by
  refine ⟨?_, ?_, ?_⟩
  · exact (issueToken_claim (fun _ _ _ _ => "sig") 30 5 sampleMgr
      "user1" "pass2").1 sampleUser sampleToken (by decide) (by decide)
      (by decide) (by decide)
  · exact (issueToken_claim (fun _ _ _ _ => "sig") 30 5 sampleMgr
      "nouser" "pass2").2.1 (by decide)
  · exact (issueToken_claim (fun _ _ _ _ => "sig") 30 5 sampleMgr
      "user1" "bad").2.2 sampleUser (by decide) (by decide)

/-- C4: when the first token-map entry matching the given signed value
is expired, userByToken fails with the token-expired error, removes
exactly that entry and leaves the version (and users) unchanged; when
no entry matches it fails with token-not-found and the state is fully
unchanged; when the match is live but its owning userID is absent from
the user map it fails with the invalid-token error, again with no state
change. -/
theorem userByToken_claim (m : UserManager) (now : Int) (token : String) :
    (m.tokens.find? (fun p => p.2.token == token) = none →
        userByToken m now token = (m, .error .tokenNotFound)) ∧
    (∀ q, m.tokens.find? (fun p => p.2.token == token) = some q →
        (q.2.expires < now →
            (userByToken m now token).2 = .error .tokenExpired ∧
            (userByToken m now token).1.tokens =
              removeFirstToken token m.tokens ∧
            (userByToken m now token).1.version = m.version ∧
            (userByToken m now token).1.users = m.users) ∧
        (¬ q.2.expires < now → lookupKey q.1 m.users = none →
            userByToken m now token = (m, .error .invalidToken))) := by
  have haux := userByTokenAux_eq m.users now token m.tokens
  constructor
  · intro hn
    rw [hn] at haux
    simp [userByToken, haux]
  · intro q hq
    rw [hq] at haux
    constructor
    · intro he
      simp [userByToken, haux, he]
    · intro he hu
      simp [userByToken, haux, he, hu]

/-- C4 witness: `userByToken_claim` evaluated on concrete managers — an
expired match at time 50 (entry removed, version kept at 4), a missing
token, and a live match whose owner is absent from the user map. -/
theorem userByToken_claim_witness :
    ((userByToken mgrExpired 50 "tokE").2 = .error .tokenExpired ∧
      (userByToken mgrExpired 50 "tokE").1.tokens = [] ∧
      (userByToken mgrExpired 50 "tokE").1.version = 4) ∧
    userByToken mgrExpired 50 "zzz" = (mgrExpired, .error .tokenNotFound) ∧
    userByToken mgrOrphan 5 "tok1" = (mgrOrphan, .error .invalidToken) := by
  refine ⟨?_, ?_, ?_⟩
  · have h := ((userByToken_claim mgrExpired 50 "tokE").2
      ("user1", expiredToken) (by decide)).1 (by decide)
    exact ⟨h.1, h.2.1, h.2.2.1⟩
  · exact (userByToken_claim mgrExpired 50 "zzz").1 (by decide)
  · exact ((userByToken_claim mgrOrphan 5 "tok1").2
      ("user1", sampleToken) (by decide)).2 (by decide) (by decide)

/-- C5: revokeToken removes the first token-map entry whose stored
signed value equals the argument and increments the version exactly
once when such an entry exists (the user map untouched), and is a
silent no-op — state fully unchanged — when no entry matches; matching
is by exact signed-string equality. -/
theorem revokeToken_claim (m : UserManager) (token : String) :
    ((m.tokens.find? (fun p => p.2.token == token)).isSome = true →
        (revokeToken m token).tokens = removeFirstToken token m.tokens ∧
        (revokeToken m token).version = m.version + 1 ∧
        (revokeToken m token).users = m.users) ∧
    (m.tokens.find? (fun p => p.2.token == token) = none →
        revokeToken m token = m) := by
  have h := revokeAux_eq token m.tokens
  constructor
  · intro hs
    simp [revokeToken, h, hs]
  · intro hn
    have hr := removeFirstToken_of_find_none token m.tokens hn
    simp [revokeToken, h, hn, hr]

/-- C5 witness: `revokeToken_claim` evaluated on a concrete manager —
revoking the stored signed value "tok1" removes it and bumps the
version from 3 to 4; revoking an unknown string leaves the manager
unchanged. -/
theorem revokeToken_claim_witness :
    ((revokeToken sampleMgr "tok1").tokens = [] ∧
      (revokeToken sampleMgr "tok1").version = 4 ∧
      (revokeToken sampleMgr "tok1").users = sampleMgr.users) ∧
    revokeToken sampleMgr "zzz" = sampleMgr := by
  refine ⟨?_, ?_⟩
  · have h := (revokeToken_claim sampleMgr "tok1").1 (by decide)
    exact ⟨h.1, h.2.1, h.2.2⟩
  · exact (revokeToken_claim sampleMgr "zzz").2 (by decide)

/-- C6: detectPrimary behaves exactly as the specification describes —
it fails with the empty-cluster-map error when the snapshot is absent
or has no proxy-role and no storage-role members; otherwise it scans
the proxy-role members followed by the storage-role members, skipping
members at the tracked URL and failed probes, adopts the first member
whose reported primary URL differs from the tracked URL (replacing the
tracked URL and the snapshot), and fails with the
primary-detection-failed error, state unchanged, when none does. -/
theorem detectPrimary_claim (probe : String → Option Smap) (p : Proxy) :
    detectPrimary probe p = detectPrimarySpec probe p := by
  cases hs : p.smap with
  | none => simp [detectPrimary, detectPrimarySpec, hs]
  | some sm =>
    by_cases hz : sm.pmap.length + sm.tmap.length = 0
    · simp [detectPrimary, detectPrimarySpec, hs, hz]
    · have hfa := firstAdoptable_append probe p.url sm.pmap sm.tmap
      cases hp : probePass probe p.url sm.pmap with
      | some found =>
        have h1 : firstAdoptable probe p.url sm.pmap = some found := by
          rw [← probePass_eq_firstAdoptable, hp]
        simp [detectPrimary, detectPrimarySpec, hs, hz, hp, hfa, h1]
      | none =>
        have h1 : firstAdoptable probe p.url sm.pmap = none := by
          rw [← probePass_eq_firstAdoptable, hp]
        rw [h1] at hfa
        cases ht : probePass probe p.url sm.tmap with
        | some found2 =>
          have h2 : firstAdoptable probe p.url sm.tmap = some found2 := by
            rw [← probePass_eq_firstAdoptable, ht]
          rw [h2] at hfa
          simp [detectPrimary, detectPrimarySpec, hs, hz, hp, ht, hfa]
        | none =>
          have h2 : firstAdoptable probe p.url sm.tmap = none := by
            rw [← probePass_eq_firstAdoptable, ht]
          rw [h2] at hfa
          simp [detectPrimary, detectPrimarySpec, hs, hz, hp, ht, hfa]

/-- C7: with a non-empty tracked primary URL, the snapshot phase of the
replication task produces a TokenList holding exactly the signed values
of the token records whose expiry is not before `now`, tagged with the
current version; the expired records are dropped from the token map
without changing the version or the user map; with an empty tracked URL
the task returns immediately and performs no sweep. -/
theorem sendTokensToProxy_claim (proxyUrl : String) (now : Int)
    (m : UserManager) :
    (proxyUrl = "" → sendTokensToProxy proxyUrl now m = none) ∧
    (proxyUrl ≠ "" →
        sendTokensToProxy proxyUrl now m =
          some ({ m with tokens := m.tokens.filter (fun p => now ≤ p.2.expires) },
            { tokens := (m.tokens.filter (fun p => now ≤ p.2.expires)).map
                (fun p => p.2.token),
              version := m.version })) := by
  constructor
  · intro h
    simp [sendTokensToProxy, h]
  · intro h
    simp [sendTokensToProxy, h, sweepTokens_eq]

/-- C7 witness: `sendTokensToProxy_claim` evaluated at time 50 on a
manager holding one live and one expired token — the empty URL yields
`none`; the URL "http:x" yields the live token's signed value tagged
with version 4 and the expired record dropped. -/
theorem sendTokensToProxy_claim_witness :
    sendTokensToProxy "" 50
      { users := [], tokens := [("u", sampleToken), ("user1", expiredToken)],
        version := 4 } = none ∧
    sendTokensToProxy "http:x" 50
      { users := [], tokens := [("u", sampleToken), ("user1", expiredToken)],
        version := 4 } =
      some ({ users := [], tokens := [("u", sampleToken)], version := 4 },
        { tokens := ["tok1"], version := 4 }) := by
  constructor
  · exact (sendTokensToProxy_claim "" 50
      { users := [], tokens := [("u", sampleToken), ("user1", expiredToken)],
        version := 4 }).1 rfl
  · exact (sendTokensToProxy_claim "http:x" 50
      { users := [], tokens := [("u", sampleToken), ("user1", expiredToken)],
        version := 4 }).2 (by decide)

/-- C8 counterexample: when the user DB file does not exist but a
persisted token file with version 5 exists, the fresh manager's version
is 1, not 5 — the constructor returns before ever reading the token
file, so the claim that an existing token file always restores the
version is false. -/
theorem newUserManager_version_counterexample :
    (newUserManager (fun _ => none) (fun s => s) none
        (some { tokens := ["t"], version := 5 })).version ≠ 5 := by
  decide

/-- C8 (amended): a manager created over a path with no user DB file
starts with an empty user map, an empty token map and version 1
whatever the token file holds; when the user DB file exists and a
persisted token file exists, the version counter is restored from the
token file's version field. -/
theorem newUserManager_claim (decrypt : String → Option TokenInfo)
    (decodePwd : String → String) (tf : Option TokenList)
    (users : List (String × UserInfo)) (tl : TokenList) :
    (newUserManager decrypt decodePwd none tf).users = [] ∧
    (newUserManager decrypt decodePwd none tf).tokens = [] ∧
    (newUserManager decrypt decodePwd none tf).version = 1 ∧
    (newUserManager decrypt decodePwd (some users) (some tl)).version =
      tl.version := by
  refine ⟨rfl, rfl, rfl, rfl⟩

/-- C9: converting a pushed TokenList is all-or-nothing — a nil list or
an empty token slice yields an empty set with version 1 and no error;
if any token in the list fails decryption the whole conversion fails
with an error and no partial set is returned; if every token decrypts,
the conversion succeeds and carries the list's version. -/
theorem newAuthList_claim (decrypt : String → Except String AuthRec)
    (tl : TokenList) :
    (newAuthList decrypt none = .ok ([], 1)) ∧
    (tl.tokens = [] → newAuthList decrypt (some tl) = .ok ([], 1)) ∧
    (∀ t e, t ∈ tl.tokens → decrypt t = .error e →
        ∃ e2, newAuthList decrypt (some tl) = .error e2) ∧
    (tl.tokens ≠ [] → (∀ t, t ∈ tl.tokens → ∃ r, decrypt t = .ok r) →
        ∃ auth, newAuthList decrypt (some tl) = .ok (auth, tl.version)) := by
  refine ⟨rfl, ?_, ?_, ?_⟩
  · intro h
    simp [newAuthList, h]
  · intro t e ht he
    have hne : tl.tokens ≠ [] := by
      intro hnil; rw [hnil] at ht; cases ht
    obtain ⟨e2, h2⟩ := buildAuthList_error decrypt tl.tokens t e ht he
    exact ⟨e2, by simp [newAuthList, List.isEmpty_iff, hne, h2]⟩
  · intro hne hall
    obtain ⟨l, hl⟩ := buildAuthList_ok decrypt tl.tokens hall
    exact ⟨l, by simp [newAuthList, List.isEmpty_iff, hne, hl]⟩

/-- C9 witness: `newAuthList_claim` evaluated with a decoder that
accepts "good" and rejects "bad" — the nil and empty lists give the
empty set with version 1, a list containing "bad" fails as a whole,
and the list ["good"] succeeds carrying its version 7. -/
theorem newAuthList_claim_witness :
    newAuthList (fun t => if t = "good"
        then .ok { userID := "u", issued := 0, expires := 9, creds := [] }
        else .error "Invalid token") none = .ok ([], 1) ∧
    newAuthList (fun t => if t = "good"
        then .ok { userID := "u", issued := 0, expires := 9, creds := [] }
        else .error "Invalid token") (some { tokens := [], version := 7 }) =
      .ok ([], 1) ∧
    (∃ e2, newAuthList (fun t => if t = "good"
        then .ok { userID := "u", issued := 0, expires := 9, creds := [] }
        else .error "Invalid token")
        (some { tokens := ["good", "bad"], version := 7 }) = .error e2) ∧
    (∃ auth, newAuthList (fun t => if t = "good"
        then .ok { userID := "u", issued := 0, expires := 9, creds := [] }
        else .error "Invalid token")
        (some { tokens := ["good"], version := 7 }) = .ok (auth, 7)) := by
  refine ⟨?_, ?_, ?_, ?_⟩
  · exact (newAuthList_claim (fun t => if t = "good"
      then .ok { userID := "u", issued := 0, expires := 9, creds := [] }
      else .error "Invalid token") { tokens := ["good"], version := 7 }).1
  · exact (newAuthList_claim (fun t => if t = "good"
      then .ok { userID := "u", issued := 0, expires := 9, creds := [] }
      else .error "Invalid token") { tokens := [], version := 7 }).2.1 rfl
  · exact (newAuthList_claim (fun t => if t = "good"
      then .ok { userID := "u", issued := 0, expires := 9, creds := [] }
      else .error "Invalid token") { tokens := ["good", "bad"], version := 7
      }).2.2.1 "bad" "Invalid token" (by decide) (by rfl)
  · exact (newAuthList_claim (fun t => if t = "good"
      then .ok { userID := "u", issued := 0, expires := 9, creds := [] }
      else .error "Invalid token") { tokens := ["good"], version := 7
      }).2.2.2 (by decide) (by
        intro t ht
        have h1 : t = "good" := List.mem_singleton.mp ht
        exact ⟨{ userID := "u", issued := 0, expires := 9, creds := [] },
          by simp [h1]⟩)

/-- C10: the claim-decoding stage of decryptToken fails with the
invalid-token error whenever the username claim is missing or not a
string, or the issued or expires claim is missing, not a string, or an
unparsable timestamp; and whenever those three are well-formed it
succeeds for every value of the creds claim, a missing or ill-typed
creds claim yielding the empty credential map — so success or failure
never depends on creds. -/
theorem decryptToken_claim (parseRFC822 : String → Option Int)
    (claims : List (String × ClaimVal)) :
    ((asString (lookupKey "username" claims) = none ∨
      (asString (lookupKey "issued" claims)).bind parseRFC822 = none ∨
      (asString (lookupKey "expires" claims)).bind parseRFC822 = none) →
        decryptToken parseRFC822 claims = .error "Invalid token") ∧
    (∀ u i e, asString (lookupKey "username" claims) = some u →
        (asString (lookupKey "issued" claims)).bind parseRFC822 = some i →
        (asString (lookupKey "expires" claims)).bind parseRFC822 = some e →
        decryptToken parseRFC822 claims =
          .ok { userID := u, issued := i, expires := e,
                creds := (asStrMap (lookupKey "creds" claims)).getD [] }) := by
  constructor
  · intro h
    cases hu : asString (lookupKey "username" claims) with
    | none => simp [decryptToken, hu]
    | some u =>
      cases hi : asString (lookupKey "issued" claims) with
      | none => simp [decryptToken, hu, hi]
      | some istr =>
        cases hpi : parseRFC822 istr with
        | none => simp [decryptToken, hu, hi, hpi]
        | some i =>
          cases he : asString (lookupKey "expires" claims) with
          | none => simp [decryptToken, hu, hi, hpi, he]
          | some estr =>
            cases hpe : parseRFC822 estr with
            | none => simp [decryptToken, hu, hi, hpi, he, hpe]
            | some e =>
              exfalso
              rcases h with h | h | h
              · rw [hu] at h; cases h
              · rw [hi] at h; simp [hpi] at h
              · rw [he] at h; simp [hpe] at h
  · intro u i e hu hi he
    rcases Option.bind_eq_some.mp hi with ⟨istr, hi1, hi2⟩
    rcases Option.bind_eq_some.mp he with ⟨estr, he1, he2⟩
    cases hc : asStrMap (lookupKey "creds" claims) with
    | none => simp [decryptToken, hu, hi1, hi2, he1, he2, hc]
    | some c => simp [decryptToken, hu, hi1, hi2, he1, he2, hc]

/-- C10 witness: `decryptToken_claim` evaluated on concrete claim maps —
a map without a username claim fails; a well-formed map with an
ill-typed creds claim succeeds with the empty credential map. -/
theorem decryptToken_claim_witness :
    decryptToken (fun s => if s = "t1" then some 3 else none)
      [("issued", .str "t1"), ("expires", .str "t1")] =
      .error "Invalid token" ∧
    decryptToken (fun s => if s = "t1" then some 3 else none)
      [("username", .str "u"), ("issued", .str "t1"),
       ("expires", .str "t1"), ("creds", .other)] =
      .ok { userID := "u", issued := 3, expires := 3, creds := [] } := by
  constructor
  · exact (decryptToken_claim (fun s => if s = "t1" then some 3 else none)
      [("issued", .str "t1"), ("expires", .str "t1")]).1 (Or.inl (by decide))
  · exact (decryptToken_claim (fun s => if s = "t1" then some 3 else none)
      [("username", .str "u"), ("issued", .str "t1"),
       ("expires", .str "t1"), ("creds", .other)]).2 "u" 3 3
      (by decide) (by decide) (by decide)
